import Mathlib

/-!
# Verification of the sf-filecache bucket cache

Shallow embedding of the sf-filecache repository. The repository ships two
equivalent variants of the cache: the callback-style `src/index.js`
(functions `fileCacheGet`, `fileCacheGetStream`, `fileCacheSet`,
`fileCacheSetStream`, `fileCacheSetEOL`) and the promise-style service
(functions `get`, `getStream`, `set`, `setStream`, `setEOL`, with the
exported helpers `_keyToPath`, `_encodeHeader`, `_decodeHeader`). Both are
embedded below where they differ; shared pure helpers are embedded once.

Modelling choices:
* Bytes are `Nat` (a Buffer is `List Nat`).
* A JavaScript double is represented by its IEEE-754 bit pattern, a `Nat`
  below `2 ^ 64`; `writeDoubleLE` writes the 8 little-endian bytes of that
  pattern and `readDoubleLE` reads them back. For the nonnegative
  integer-valued timestamps the cache compares, numeric order coincides
  with bit-pattern order, so `<` on patterns models `<` on values.
* The filesystem is a map from path to optional byte content; the Node
  `fs` primitives used by the source are modelled on it, with records of
  injectable failures standing for the outcomes the environment chooses
  (I/O errors, short writes).
* The per-key lock service is an external collaborator; an operation run
  is recorded as a trace of `take`/`release` events.
-/

namespace SfFileCache

/-- The 4-byte ASCII magic tag "BUCK" (source: `HEADER_FLAG = 'BUCK'`). -/
def HEADER_FLAG : List Nat := [66, 85, 67, 75]

/-- Source: `HEADER_SIZE = HEADER_FLAG.length + 16`. -/
def HEADER_SIZE : Nat := HEADER_FLAG.length + 16

/-- Little-endian base-256 digits, fixed width `k`. -/
def bytesLE : Nat → Nat → List Nat
  | 0, _ => []
  | k + 1, bits => bits % 256 :: bytesLE k (bits / 256)

/-- Recompose a little-endian byte list into a natural number. -/
def unbytesLE : List Nat → Nat
  | [] => 0
  | b :: bs => b + 256 * unbytesLE bs

/-- `Buffer.writeDoubleLE`: the 8 little-endian bytes of the bit pattern. -/
def f64ToBytesLE (bits : Nat) : List Nat := bytesLE 8 bits

/-- `Buffer.readDoubleLE`: reads exactly 8 bytes. -/
def f64FromBytesLE (bs : List Nat) : Nat := unbytesLE (bs.take 8)

/-- Result of `_decodeHeader`. -/
structure BucketHeader where
  eol : Nat
deriving Repr, DecidableEq

/-- Raw (unwrapped) Node filesystem error codes that matter here. -/
inductive FsErr where
  | enoent
  | eexist
deriving Repr, DecidableEq

/-- The error kinds surfaced by the cache (`YError` codes), plus raw
filesystem errors propagated unwrapped. -/
inductive Err where
  | endOfLife (eol : Nat)
  | noent (key : String)
  | badHeaderSize (n : Nat)
  | badHeaderFmt
  | access (key : String)
  | badWrite (n : Nat)
  | fsRaw (e : FsErr)
deriving Repr, DecidableEq

/-- Source `_encodeHeader` / `_createHeader`: starts from the 20-byte
buffer "BUCK" followed by 16 bytes 120 (the character "x"), then
`writeDoubleLE(header.eol || 0, 4)` overwrites offsets 4..11. The
argument is the `eol` field of the header object, `none` when absent. -/
def _encodeHeader (eol : Option Nat) : List Nat :=
  HEADER_FLAG ++ f64ToBytesLE (eol.getD 0) ++ List.replicate 8 120

/-- The magic-tag check of `_decodeHeader`: some `i` below
`HEADER_FLAG.length` with `data[i] !== HEADER_FLAG.charCodeAt(i)`. -/
def magicMismatch (data : List Nat) : Bool :=
  (List.range HEADER_FLAG.length).any fun i => data.getD i 0 != HEADER_FLAG.getD i 0

/-- Source `_decodeHeader` / `_readHeader`: size check, magic check, then
`readDoubleLE` at offset `HEADER_FLAG.length`. -/
def _decodeHeader (data : List Nat) : Except Err BucketHeader :=
  if data.length < HEADER_SIZE then
    .error (.badHeaderSize data.length)
  else if magicMismatch data then
    .error .badHeaderFmt
  else
    .ok ⟨f64FromBytesLE ((data.drop HEADER_FLAG.length).take 8)⟩

/-- The filesystem: path to optional file content. -/
def Fs : Type := String → Option (List Nat)

/-- Point update of the filesystem. -/
def Fs.update (fs : Fs) (p : String) (v : Option (List Nat)) : Fs :=
  fun q => if q = p then v else fs q

/-- `sanitize-filename` is an external collaborator (deterministic, no
collision-freedom assumed); no claim depends on its transformation, so it
is modelled as the identity. -/
def sanitize (s : String) : String := s

/-- Source `_keyToPath`: `path.join(dir, "__" + sanitize(key) + ".bucket")`. -/
def _keyToPath (dir key : String) : String :=
  dir ++ "/__" ++ sanitize key ++ ".bucket"

/-- The options object the source passes to `fs.writeFile`. Node reads
the `flag` key; the source spells `flags`. Both keys are modelled so the
call site can be transcribed verbatim. -/
structure WriteFileOptions where
  flag : Option String := none
  flags : Option String := none
deriving Repr, DecidableEq

/-- Node `fs.writeFile` contract (external collaborator): the write mode
is `options.flag`, defaulting to "w"; unknown keys such as `flags` are
ignored. Mode "wx" fails with `EEXIST` when the file already exists;
otherwise the file is created or truncated and fully written. `inj`
injects an environment-chosen I/O failure. -/
def nodeWriteFile (fs : Fs) (p : String) (contents : List Nat)
    (opts : WriteFileOptions) (inj : Option FsErr) :
    Except FsErr Unit × Fs :=
  match inj with
  | some e => (.error e, fs)
  | none =>
    if opts.flag.getD "w" = "wx" && (fs p).isSome then (.error .eexist, fs)
    else (.ok (), fs.update p (some contents))

/-- Node `fs.unlink`: fails with `ENOENT` when the file is absent. -/
def nodeUnlink (fs : Fs) (p : String) : Except FsErr Unit × Fs :=
  match fs p with
  | none => (.error .enoent, fs)
  | some _ => (.ok (), fs.update p none)

/-- Node `fs.rename`: moves `src` over `dst`; `inj` injects a failure. -/
def nodeRename (fs : Fs) (src dst : String) (inj : Option FsErr) :
    Except FsErr Unit × Fs :=
  match inj with
  | some e => (.error e, fs)
  | none =>
    match fs src with
    | none => (.error .enoent, fs)
    | some c => (.ok (), (fs.update dst (some c)).update src none)

/-- Events on the external per-key lock service. -/
inductive LockEv where
  | take (key : String)
  | release (key : String)
deriving Repr, DecidableEq

/-- Outcome of one write operation of the promise variant: surfaced
result, final filesystem, and the trace of lock events. -/
structure WOut where
  res : Except Err Unit
  fs : Fs
  locks : List LockEv

/-- The JavaScript number `0xffffffffffffffff` (rounds to `2 ^ 64`),
used by `setStream` as an effectively-infinite end of life. -/
def SENTINEL : Nat := 18446744073709551616

/-- Concatenation of the chunks piped through a stream. -/
def concatChunks (chunks : List (List Nat)) : List Nat :=
  chunks.foldr (fun c acc => c ++ acc) []

/-- Environment-chosen outcomes for `set`. -/
structure SetFailures where
  writeErr : Option FsErr := none
  renameErr : Option FsErr := none
deriving Repr, DecidableEq

/-- Environment-chosen outcomes for `setStream`. -/
structure StreamFailures where
  openErr : Option FsErr := none
  renameErr : Option FsErr := none
deriving Repr, DecidableEq

/-- Environment-chosen outcomes for `setEOL`: an injected `fs.write`
failure and the byte count the write reports (at most `HEADER_SIZE`). -/
structure EolFailures where
  writeErr : Option FsErr := none
  bytesWritten : Nat := HEADER_SIZE
deriving Repr, DecidableEq

/-- Promise-variant `get`: read the whole file (missing file wrapped as
`E_NOENT` with the key), decode the header (decode errors propagate
as-is), reject `E_END_OF_LIFE` when `eol` is past, else return the bytes
after `HEADER_SIZE`. The callback variant `fileCacheGet` is identical. -/
def get (fs : Fs) (dir : String) (now : Nat) (key : String) :
    Except Err (List Nat) :=
  match fs (_keyToPath dir key) with
  | none => .error (.noent key)
  | some data =>
    match _decodeHeader data with
    | .error e => .error e
    | .ok h =>
      if h.eol < now then .error (.endOfLife h.eol)
      else .ok (data.drop HEADER_SIZE)

/-- Promise-variant `getStream`: a read stream piped through
`firstChunkStream` with `chunkLength` `HEADER_SIZE`; a missing file is
wrapped as `E_NOENT` with the key; the first chunk (the first
`HEADER_SIZE` bytes, fewer when the file is shorter) is decoded, the
`eol` is checked, the chunk is replaced by an empty buffer and the rest
of the stream is resolved to the consumer. The result is the
concatenation of the delivered stream. `fileCacheGetStream` is
identical. -/
def getStream (fs : Fs) (dir : String) (now : Nat) (key : String) :
    Except Err (List Nat) :=
  match fs (_keyToPath dir key) with
  | none => .error (.noent key)
  | some data =>
    match _decodeHeader (data.take HEADER_SIZE) with
    | .error e => .error e
    | .ok h =>
      if h.eol < now then .error (.endOfLife h.eol)
      else .ok (data.drop HEADER_SIZE)

/-- Promise-variant `set`: default `eol` is `time() + FS_CACHE_TTL`;
header encoded up front; reject `E_END_OF_LIFE` before taking the lock;
`fs.writeFile(dest + ".tmp", header ++ data, \x7b flags: "wx" \x7d)` —
write failures are cast to `E_ACCESS` with the key; then `fs.unlink(dest)`
with its outcome ignored, then `fs.rename` whose failure propagates raw;
the lock is released on success and in the catch. -/
def set (fs : Fs) (dir : String) (now ttl : Nat) (key : String)
    (data : List Nat) (eol : Option Nat) (o : SetFailures) : WOut :=
  let eolv := eol.getD (now + ttl)
  let header := _encodeHeader (some eolv)
  let dest := _keyToPath dir key
  if eolv < now then ⟨.error (.endOfLife eolv), fs, []⟩
  else
    match nodeWriteFile fs (dest ++ ".tmp") (header ++ data)
        { flags := some "wx" } o.writeErr with
    | (.error _, fs1) => ⟨.error (.access key), fs1, [.take key, .release key]⟩
    | (.ok _, fs1) =>
      let fs2 := (nodeUnlink fs1 dest).2
      match nodeRename fs2 (dest ++ ".tmp") dest o.renameErr with
      | (.error e, fs3) => ⟨.error (.fsRaw e), fs3, [.take key, .release key]⟩
      | (.ok _, fs3) => ⟨.ok (), fs3, [.take key, .release key]⟩

/-- Promise-variant `setStream`: default `eol` is `time() + FS_CACHE_TTL`;
header encoded from the original `eol`; then `eol = eol || 0xffffffffffffffff`
and the `E_END_OF_LIFE` pre-check, all before the lock; inside the lock a
write stream on `dest + ".tmp"` with flags "wx" (honoured by
`fs.createWriteStream`), header written first, then the chunks are piped;
on finish `fs.rename`; the catch casts every failure to `E_ACCESS` with
the key and releases the lock. -/
def setStream (fs : Fs) (dir : String) (now ttl : Nat) (key : String)
    (chunks : List (List Nat)) (eol : Option Nat) (o : StreamFailures) : WOut :=
  let eol0 := eol.getD (now + ttl)
  let header := _encodeHeader (some eol0)
  let dest := _keyToPath dir key
  let eolv := if eol0 = 0 then SENTINEL else eol0
  if eolv < now then ⟨.error (.endOfLife eolv), fs, []⟩
  else
    if (fs (dest ++ ".tmp")).isSome || o.openErr.isSome then
      ⟨.error (.access key), fs, [.take key, .release key]⟩
    else
      let fs1 := fs.update (dest ++ ".tmp") (some (header ++ concatChunks chunks))
      match nodeRename fs1 (dest ++ ".tmp") dest o.renameErr with
      | (.error _, fs2) => ⟨.error (.access key), fs2, [.take key, .release key]⟩
      | (.ok _, fs2) => ⟨.ok (), fs2, [.take key, .release key]⟩

/-- Callback-variant `fileCacheSetStream` (`src/index.js`): the write
stream on `dest + ".tmp"` is created BEFORE the `eol` check, so when the
temp file is absent it is created (empty at first) even when the check
then fails; `eol = eol || 0xffffffffffffffff` after encoding the header
from `eol || 0`. No lock service exists in this variant. -/
def fileCacheSetStream (fs : Fs) (dir : String) (now : Nat) (key : String)
    (chunks : List (List Nat)) (eol : Option Nat) (o : StreamFailures) :
    Except Err Unit × Fs :=
  let header := _encodeHeader eol
  let dest := _keyToPath dir key
  let tmpExists := (fs (dest ++ ".tmp")).isSome
  let fs0 := if tmpExists then fs else fs.update (dest ++ ".tmp") (some [])
  let eolv := if eol.getD 0 = 0 then SENTINEL else eol.getD 0
  if eolv < now then (.error (.endOfLife eolv), fs0)
  else if tmpExists || o.openErr.isSome then (.error (.access key), fs0)
  else
    let fs1 := fs0.update (dest ++ ".tmp") (some (header ++ concatChunks chunks))
    match nodeRename fs1 (dest ++ ".tmp") dest o.renameErr with
    | (.error e, fs2) => (.error (.fsRaw e), fs2)
    | (.ok _, fs2) => (.ok (), fs2)

/-- Promise-variant `setEOL`: default `eol` is `time() + FS_CACHE_TTL`.
Past `eol`: take the lock, `fs.unlink`; on success the function returns
WITHOUT releasing the lock (the release only sits in the catch). Future
`eol`: the source never takes the lock on this path; `fs.open(path, "r+")`
failure propagates raw; `fs.write(fd, header, 0, HEADER_SIZE, 0)` reports
`numBytesWritten`; a mismatch rejects `E_BAD_WRITE`; both the success
path and the catch call `lock.release`. -/
def setEOL (fs : Fs) (dir : String) (now ttl : Nat) (key : String)
    (eol : Option Nat) (o : EolFailures) : WOut :=
  let eolv := eol.getD (now + ttl)
  let p := _keyToPath dir key
  if eolv < now then
    match nodeUnlink fs p with
    | (.ok _, fs1) => ⟨.ok (), fs1, [.take key]⟩
    | (.error e, fs1) => ⟨.error (.fsRaw e), fs1, [.take key, .release key]⟩
  else
    match fs p with
    | none => ⟨.error (.fsRaw .enoent), fs, [.release key]⟩
    | some content =>
      match o.writeErr with
      | some e => ⟨.error (.fsRaw e), fs, [.release key]⟩
      | none =>
        let header := _encodeHeader (some eolv)
        let fs1 := fs.update p
          (some (header.take o.bytesWritten ++ content.drop o.bytesWritten))
        if o.bytesWritten ≠ HEADER_SIZE then
          ⟨.error (.badWrite o.bytesWritten), fs1, [.release key]⟩
        else ⟨.ok (), fs1, [.release key]⟩

/-- Callback-variant `fileCacheSetEOL` (`src/index.js`): default
`eol = eol || 0`. Past `eol`: `fs.unlink`, error or success to the
callback. Future `eol`: `fs.open(path, "r+")` failure raw to the
callback; on success the source schedules `fs.write` and then
immediately runs the stray `return cb(null)`, so the callback receives a
success FIRST and the outcome of the write only as a second invocation.
The returned list is the sequence of callback invocations. -/
def fileCacheSetEOL (fs : Fs) (dir : String) (now : Nat) (key : String)
    (eol : Option Nat) (o : EolFailures) :
    List (Except Err Unit) × Fs :=
  let eolv := eol.getD 0
  let p := _keyToPath dir key
  if eolv < now then
    match nodeUnlink fs p with
    | (.ok _, fs1) => ([.ok ()], fs1)
    | (.error e, fs1) => ([.error (.fsRaw e)], fs1)
  else
    match fs p with
    | none => ([.error (.fsRaw .enoent)], fs)
    | some content =>
      match o.writeErr with
      | some e => ([.ok (), .error (.fsRaw e)], fs)
      | none =>
        let header := _encodeHeader (some eolv)
        let fs1 := fs.update p
          (some (header.take o.bytesWritten ++ content.drop o.bytesWritten))
        if o.bytesWritten ≠ HEADER_SIZE then
          ([.ok (), .error (.badWrite o.bytesWritten)], fs1)
        else ([.ok (), .ok ()], fs1)

instance {ε α : Type} [DecidableEq ε] [DecidableEq α] :
    DecidableEq (Except ε α) := fun
  | .ok a, .ok b => decidable_of_iff (a = b) (by simp)
  | .error e, .error f => decidable_of_iff (e = f) (by simp)
  | .ok _, .error _ => isFalse (by simp)
  | .error _, .ok _ => isFalse (by simp)

/-! ## Helper lemmas -/

theorem Fs.update_same (fs : Fs) (p : String) (v : Option (List Nat)) :
    fs.update p v p = v := by simp [Fs.update]

theorem Fs.update_other (fs : Fs) (p q : String) (v : Option (List Nat))
    (h : q ≠ p) : fs.update p v q = fs q := by simp [Fs.update, h]

theorem ne_append_tmp (s : String) : s ≠ s ++ ".tmp" := by
  intro h
  have hl := congrArg String.length h
  rw [String.length_append] at hl
  have h4 : (".tmp" : String).length = 4 := rfl
  omega

theorem bytesLE_length (k b : Nat) : (bytesLE k b).length = k := by
  induction k generalizing b with
  | zero => rfl
  | succ k ih => simp [bytesLE, ih]

theorem unbytes_bytes (k b : Nat) : unbytesLE (bytesLE k b) = b % 256 ^ k := by
  induction k generalizing b with
  | zero => simp [bytesLE, unbytesLE, Nat.mod_one]
  | succ k ih =>
    have h1 : b % (256 * 256 ^ k) = 256 * (b / 256 % 256 ^ k) + b % 256 := by
      conv_lhs => rw [← Nat.div_add_mod (b % (256 * 256 ^ k)) 256]
      rw [Nat.mod_mul_right_div_self, Nat.mod_mod_of_dvd _ ⟨256 ^ k, rfl⟩]
    simp only [bytesLE, unbytesLE, ih]
    rw [pow_succ']
    omega

theorem encodeHeader_length (e : Option Nat) :
    (_encodeHeader e).length = HEADER_SIZE := by
  simp [_encodeHeader, f64ToBytesLE, bytesLE_length, HEADER_FLAG, HEADER_SIZE]

theorem magicMismatch_flag_append (l : List Nat) :
    magicMismatch (HEADER_FLAG ++ l) = false := by
  simp [magicMismatch, HEADER_FLAG, List.range_succ]

theorem take8_bytesLE_append (e : Nat) (l : List Nat) :
    (bytesLE 8 e ++ l).take 8 = bytesLE 8 e := by
  rw [List.take_append_of_le_length (by rw [bytesLE_length])]
  exact List.take_of_length_le (by rw [bytesLE_length])

theorem decode_encode_append (e : Nat) (rest : List Nat) :
    _decodeHeader (_encodeHeader (some e) ++ rest) = .ok ⟨e % 2 ^ 64⟩ := by
  have hlen : (_encodeHeader (some e) ++ rest).length = 20 + rest.length := by
    rw [List.length_append, encodeHeader_length]; rfl
  have hm : magicMismatch (_encodeHeader (some e) ++ rest) = false := by
    rw [_encodeHeader, List.append_assoc, List.append_assoc]
    exact magicMismatch_flag_append _
  rw [_decodeHeader, if_neg (by rw [hlen]; simp [HEADER_SIZE, HEADER_FLAG]),
    if_neg (by rw [hm]; simp)]
  have hdrop : ((_encodeHeader (some e) ++ rest).drop HEADER_FLAG.length) =
      bytesLE 8 e ++ (List.replicate 8 120 ++ rest) := by
    rw [_encodeHeader, List.append_assoc, List.append_assoc]
    rw [List.drop_append_of_le_length (by simp [HEADER_FLAG])]
    simp [HEADER_FLAG, f64ToBytesLE]
  rw [hdrop]
  have ht : (bytesLE 8 e ++ (List.replicate 8 120 ++ rest)).take 8 = bytesLE 8 e :=
    take8_bytesLE_append e _
  rw [f64FromBytesLE, ht, List.take_of_length_le (by simp [bytesLE_length]),
    unbytes_bytes]
  norm_num

theorem drop_encode_append (e : Option Nat) (rest : List Nat) :
    (_encodeHeader e ++ rest).drop HEADER_SIZE = rest := by
  rw [← encodeHeader_length e, List.drop_left]

theorem take_encode_append (e : Option Nat) (rest : List Nat) :
    (_encodeHeader e ++ rest).take HEADER_SIZE = _encodeHeader e := by
  rw [← encodeHeader_length e, List.take_left]

theorem set_success (fs : Fs) (dir : String) (now ttl : Nat) (key : String)
    (data : List Nat) (eol : Nat) (h : ¬ eol < now) :
    (set fs dir now ttl key data (some eol) ⟨none, none⟩).res = .ok () ∧
    (set fs dir now ttl key data (some eol) ⟨none, none⟩).fs (_keyToPath dir key) =
      some (_encodeHeader (some eol) ++ data) ∧
    (set fs dir now ttl key data (some eol) ⟨none, none⟩).fs
      (_keyToPath dir key ++ ".tmp") = none ∧
    (set fs dir now ttl key data (some eol) ⟨none, none⟩).locks =
      [.take key, .release key] := by
  have hne : _keyToPath dir key ≠ _keyToPath dir key ++ ".tmp" :=
    ne_append_tmp _
  have hne2 : _keyToPath dir key ++ ".tmp" ≠ _keyToPath dir key := hne.symm
  cases hdest : fs (_keyToPath dir key) with
  | none =>
    simp [set, h, nodeWriteFile, nodeUnlink, nodeRename, Fs.update, hdest, hne,
      hne2]
  | some c =>
    simp [set, h, nodeWriteFile, nodeUnlink, nodeRename, Fs.update, hdest, hne,
      hne2]

theorem setStream_success (fs : Fs) (dir : String) (now ttl : Nat)
    (key : String) (chunks : List (List Nat)) (eol : Nat)
    (h : ¬ (if eol = 0 then SENTINEL else eol) < now)
    (htmp : fs (_keyToPath dir key ++ ".tmp") = none) :
    (setStream fs dir now ttl key chunks (some eol) ⟨none, none⟩).res = .ok () ∧
    (setStream fs dir now ttl key chunks (some eol) ⟨none, none⟩).fs
      (_keyToPath dir key) =
      some (_encodeHeader (some eol) ++ concatChunks chunks) ∧
    (setStream fs dir now ttl key chunks (some eol) ⟨none, none⟩).fs
      (_keyToPath dir key ++ ".tmp") = none ∧
    (setStream fs dir now ttl key chunks (some eol) ⟨none, none⟩).locks =
      [.take key, .release key] := by
  have hne : _keyToPath dir key ≠ _keyToPath dir key ++ ".tmp" :=
    ne_append_tmp _
  have hne2 : _keyToPath dir key ++ ".tmp" ≠ _keyToPath dir key := hne.symm
  simp [setStream, h, htmp, nodeRename, Fs.update, hne, hne2]

theorem decode_encode (e : Nat) :
    _decodeHeader (_encodeHeader (some e)) = .ok ⟨e % 2 ^ 64⟩ := by
  have := decode_encode_append e []
  simpa using this

theorem get_encode (fs : Fs) (dir : String) (now : Nat) (key : String)
    (e : Nat) (payload : List Nat)
    (hfile : fs (_keyToPath dir key) = some (_encodeHeader (some e) ++ payload))
    (hlive : ¬ e % 2 ^ 64 < now) :
    get fs dir now key = .ok payload := by
  have hlive2 : ¬ e % 18446744073709551616 < now := by norm_num at hlive ⊢; omega
  simp [get, hfile, decode_encode_append, hlive2, drop_encode_append]

theorem getStream_encode (fs : Fs) (dir : String) (now : Nat) (key : String)
    (e : Nat) (payload : List Nat)
    (hfile : fs (_keyToPath dir key) = some (_encodeHeader (some e) ++ payload))
    (hlive : ¬ e % 2 ^ 64 < now) :
    getStream fs dir now key = .ok payload := by
  have hlive2 : ¬ e % 18446744073709551616 < now := by norm_num at hlive ⊢; omega
  simp [getStream, hfile, take_encode_append, decode_encode, hlive2,
    drop_encode_append]

theorem get_encode_dead (fs : Fs) (dir : String) (now : Nat) (key : String)
    (e : Nat) (payload : List Nat)
    (hfile : fs (_keyToPath dir key) = some (_encodeHeader (some e) ++ payload))
    (hdead : e % 2 ^ 64 < now) :
    get fs dir now key = .error (.endOfLife (e % 2 ^ 64)) := by
  have hdead2 : e % 18446744073709551616 < now := by norm_num at hdead ⊢; omega
  simp [get, hfile, decode_encode_append, hdead2]

theorem getStream_encode_dead (fs : Fs) (dir : String) (now : Nat)
    (key : String) (e : Nat) (payload : List Nat)
    (hfile : fs (_keyToPath dir key) = some (_encodeHeader (some e) ++ payload))
    (hdead : e % 2 ^ 64 < now) :
    getStream fs dir now key = .error (.endOfLife (e % 2 ^ 64)) := by
  have hdead2 : e % 18446744073709551616 < now := by norm_num at hdead ⊢; omega
  simp [getStream, hfile, take_encode_append, decode_encode, hdead2]


/-- C1: Transport round-trip. For every key, payload and `eol` strictly in
the future, a `set` (or `setStream`) followed before `eol` by a `get` or a
`getStream` on the same key succeeds and delivers exactly the stored
payload bytes — the concatenated chunks in the stream case — with no
header byte included. -/
theorem C1_transport_roundtrip (fs : Fs) (dir : String)
    (now ttl readTime eol : Nat) (key : String) (data : List Nat)
    (chunks : List (List Nat))
    (hfuture : now < eol) (hread : readTime ≤ eol) (hbits : eol < 2 ^ 64)
    (htmp : fs (_keyToPath dir key ++ ".tmp") = none) :
    ((set fs dir now ttl key data (some eol) ⟨none, none⟩).res = .ok () ∧
     get (set fs dir now ttl key data (some eol) ⟨none, none⟩).fs dir
       readTime key = .ok data ∧
     getStream (set fs dir now ttl key data (some eol) ⟨none, none⟩).fs dir
       readTime key = .ok data) ∧
    ((setStream fs dir now ttl key chunks (some eol) ⟨none, none⟩).res =
       .ok () ∧
     get (setStream fs dir now ttl key chunks (some eol) ⟨none, none⟩).fs dir
       readTime key = .ok (concatChunks chunks) ∧
     getStream (setStream fs dir now ttl key chunks (some eol)
       ⟨none, none⟩).fs dir readTime key = .ok (concatChunks chunks)) := by
  have h1 : ¬ eol < now := by omega
  obtain ⟨r1, f1, t1, l1⟩ := set_success fs dir now ttl key data eol h1
  have hmod : eol % 2 ^ 64 = eol := Nat.mod_eq_of_lt hbits
  have hlive : ¬ eol % 2 ^ 64 < readTime := by rw [hmod]; omega
  have hsent : ¬ (if eol = 0 then SENTINEL else eol) < now := by
    have hz : eol ≠ 0 := by omega
    simp only [hz, if_false]
    omega
  obtain ⟨r2, f2, t2, l2⟩ :=
    setStream_success fs dir now ttl key chunks eol hsent htmp
  exact ⟨⟨r1, get_encode _ _ _ _ _ _ f1 hlive,
          getStream_encode _ _ _ _ _ _ f1 hlive⟩,
         ⟨r2, get_encode _ _ _ _ _ _ f2 hlive,
          getStream_encode _ _ _ _ _ _ f2 hlive⟩⟩

/-- Witness for C1 at a concrete input: empty filesystem, `now = 0`,
`eol = 5`, read at time 4, payload `[9, 9]`, chunks `[[1], [2, 3]]`. -/
theorem C1_transport_roundtrip_witness :
    ((set (fun _ => none) "d" 0 100 "k" [9, 9] (some 5) ⟨none, none⟩).res =
       .ok () ∧
     get (set (fun _ => none) "d" 0 100 "k" [9, 9] (some 5)
       ⟨none, none⟩).fs "d" 4 "k" = .ok [9, 9] ∧
     getStream (set (fun _ => none) "d" 0 100 "k" [9, 9] (some 5)
       ⟨none, none⟩).fs "d" 4 "k" = .ok [9, 9]) ∧
    ((setStream (fun _ => none) "d" 0 100 "k" [[1], [2, 3]] (some 5)
       ⟨none, none⟩).res = .ok () ∧
     get (setStream (fun _ => none) "d" 0 100 "k" [[1], [2, 3]] (some 5)
       ⟨none, none⟩).fs "d" 4 "k" = .ok (concatChunks [[1], [2, 3]]) ∧
     getStream (setStream (fun _ => none) "d" 0 100 "k" [[1], [2, 3]]
       (some 5) ⟨none, none⟩).fs "d" 4 "k" = .ok (concatChunks [[1], [2, 3]])) :=
  C1_transport_roundtrip (fun _ => none) "d" 0 100 4 5 "k" [9, 9]
    [[1], [2, 3]] (by norm_num) (by norm_num) (by norm_num) rfl


/-- C2 (code bug): the promise-variant `setEOL` breaks the lock-release
invariant at a concrete input. On the delete path with a successful
unlink the operation returns with the lock still held (a `take` with no
`release`), and the extend path conversely emits a `release` with no
preceding `take`. -/
theorem C2_setEOL_lock_leak :
    ((setEOL (fun q => if q = _keyToPath "d" "k"
        then some (_encodeHeader (some 0) ++ [9]) else none)
        "d" 10 100 "k" (some 0) ⟨none, HEADER_SIZE⟩).res = .ok () ∧
     (setEOL (fun q => if q = _keyToPath "d" "k"
        then some (_encodeHeader (some 0) ++ [9]) else none)
        "d" 10 100 "k" (some 0) ⟨none, HEADER_SIZE⟩).locks = [.take "k"]) ∧
    (setEOL (fun q => if q = _keyToPath "d" "k"
        then some (_encodeHeader (some 0) ++ [9]) else none)
        "d" 10 100 "k" (some 20) ⟨none, HEADER_SIZE⟩).locks =
      [.release "k"] := by decide

/-- C3 (code bug): `set` passes its write mode under the key `flags` to
`fs.writeFile`, whose option key is `flag`, so the exclusive-create mode
is silently not in effect: with `<path>.tmp` already present, `set`
succeeds and publishes instead of failing with `E_ACCESS`. -/
theorem C3_set_tmp_not_exclusive :
    ((set (fun q => if q = _keyToPath "d" "k" ++ ".tmp"
        then some [7] else none) "d" 0 100 "k" [9] (some 5)
        ⟨none, none⟩).res = .ok () ∧
     (set (fun q => if q = _keyToPath "d" "k" ++ ".tmp"
        then some [7] else none) "d" 0 100 "k" [9] (some 5)
        ⟨none, none⟩).fs (_keyToPath "d" "k") =
       some (_encodeHeader (some 5) ++ [9]) ∧
     (set (fun q => if q = _keyToPath "d" "k" ++ ".tmp"
        then some [7] else none) "d" 0 100 "k" [9] (some 5)
        ⟨none, none⟩).fs (_keyToPath "d" "k" ++ ".tmp") = none) := by decide


/-- C4 counterexample: the callback-variant `setStream` called with a
pre-expired `eol` on an empty filesystem does fail with `E_END_OF_LIFE`,
but it has already created the temp file: it opens the write stream on
`<path>.tmp` before the `eol` check, a filesystem mutation the claim
rules out. -/
theorem C4_counterexample :
    (fileCacheSetStream (fun _ => none) "d" 10 "k" [] (some 5)
      ⟨none, none⟩).1 = .error (.endOfLife 5) ∧
    (fileCacheSetStream (fun _ => none) "d" 10 "k" [] (some 5)
      ⟨none, none⟩).2 (_keyToPath "d" "k" ++ ".tmp") = some [] := by decide

/-- C4 amended: with `eol < now()` (and nonzero, so that `setStream`'s
`eol || sentinel` keeps it), `set` in both variants and the
promise-variant `setStream` fail with `EndOfLife(eol)` with no lock event
and no filesystem change; the callback-variant `setStream` also fails
with `EndOfLife(eol)` and touches no lock, but leaves a freshly created
empty `<path>.tmp` behind. -/
theorem C4_amended (fs : Fs) (dir : String) (now ttl eol : Nat)
    (key : String) (data : List Nat) (chunks : List (List Nat))
    (oS : SetFailures) (oT oT2 : StreamFailures)
    (hpast : eol < now) (hz : eol ≠ 0)
    (htmp : fs (_keyToPath dir key ++ ".tmp") = none) :
    ((set fs dir now ttl key data (some eol) oS).res =
        .error (.endOfLife eol) ∧
      (set fs dir now ttl key data (some eol) oS).fs = fs ∧
      (set fs dir now ttl key data (some eol) oS).locks = []) ∧
    ((setStream fs dir now ttl key chunks (some eol) oT).res =
        .error (.endOfLife eol) ∧
      (setStream fs dir now ttl key chunks (some eol) oT).fs = fs ∧
      (setStream fs dir now ttl key chunks (some eol) oT).locks = []) ∧
    ((fileCacheSetStream fs dir now key chunks (some eol) oT2).1 =
        .error (.endOfLife eol) ∧
      (fileCacheSetStream fs dir now key chunks (some eol) oT2).2 =
        fs.update (_keyToPath dir key ++ ".tmp") (some [])) := by
  refine ⟨⟨?_, ?_, ?_⟩, ⟨?_, ?_, ?_⟩, ⟨?_, ?_⟩⟩ <;>
    simp [set, setStream, fileCacheSetStream, hpast, hz, htmp]

/-- Witness for C4 amended at a concrete input. -/
theorem C4_amended_witness :
    ((set (fun _ => none) "d" 10 3 "k" [1] (some 5) ⟨none, none⟩).res =
        .error (.endOfLife 5) ∧
      (set (fun _ => none) "d" 10 3 "k" [1] (some 5) ⟨none, none⟩).fs =
        (fun _ => none) ∧
      (set (fun _ => none) "d" 10 3 "k" [1] (some 5) ⟨none, none⟩).locks =
        []) ∧
    ((setStream (fun _ => none) "d" 10 3 "k" [[2]] (some 5)
        ⟨none, none⟩).res = .error (.endOfLife 5) ∧
      (setStream (fun _ => none) "d" 10 3 "k" [[2]] (some 5)
        ⟨none, none⟩).fs = (fun _ => none) ∧
      (setStream (fun _ => none) "d" 10 3 "k" [[2]] (some 5)
        ⟨none, none⟩).locks = []) ∧
    ((fileCacheSetStream (fun _ => none) "d" 10 "k" [[2]] (some 5)
        ⟨none, none⟩).1 = .error (.endOfLife 5) ∧
      (fileCacheSetStream (fun _ => none) "d" 10 "k" [[2]] (some 5)
        ⟨none, none⟩).2 =
        Fs.update (fun _ => none) (_keyToPath "d" "k" ++ ".tmp") (some [])) :=
  C4_amended (fun _ => none) "d" 10 3 5 "k" [1] [[2]] ⟨none, none⟩
    ⟨none, none⟩ ⟨none, none⟩ (by norm_num) (by norm_num) rfl


/-- C5 counterexample: the encoded header is 20 bytes, not 24. -/
theorem C5_counterexample : (_encodeHeader (some 0)).length ≠ 24 := by decide

theorem getD_take_lt (l : List Nat) (n i : Nat) (h : i < n) :
    (l.take n).getD i 0 = l.getD i 0 := by
  rw [List.getD_eq_getElem?_getD, List.getD_eq_getElem?_getD,
    List.getElem?_take_of_lt h]

/-- C5 amended: the encoded header is a fixed 20-byte block — the 4-byte
ASCII magic at offset 0, the eol (IEEE-754 little-endian double, written
as the 8 bytes of its bit pattern) at offset 4, the remaining 8 bytes the
fixed filler 120 — and the single constant `HEADER_SIZE = 20` governs both
the encoder output length and the decoder size check. -/
theorem C5_amended (eol : Nat) :
    HEADER_SIZE = 20 ∧
    (_encodeHeader (some eol)).length = HEADER_SIZE ∧
    (_encodeHeader (some eol)).take 4 = HEADER_FLAG ∧
    ((_encodeHeader (some eol)).drop 4).take 8 = f64ToBytesLE eol ∧
    (_encodeHeader (some eol)).drop 12 = List.replicate 8 120 ∧
    (∀ data : List Nat,
      _decodeHeader data = .error (.badHeaderSize data.length) ↔
        data.length < HEADER_SIZE) := by
  refine ⟨rfl, encodeHeader_length _, ?_, ?_, ?_, ?_⟩
  · rw [_encodeHeader]
    rw [show (4 : Nat) = HEADER_FLAG.length from rfl, List.append_assoc,
      List.take_left]
  · rw [_encodeHeader, List.append_assoc]
    rw [show (4 : Nat) = HEADER_FLAG.length from rfl, List.drop_left]
    exact take8_bytesLE_append _ _
  · simp only [_encodeHeader, Option.getD_some]
    have h12 : (HEADER_FLAG ++ f64ToBytesLE eol).length = 12 := by
      simp [HEADER_FLAG, f64ToBytesLE, bytesLE_length]
    rw [← h12, List.drop_left]
  · intro data
    constructor
    · intro h
      by_contra hge
      rw [_decodeHeader, if_neg hge] at h
      by_cases hm : magicMismatch data <;> simp [hm] at h
    · intro h
      rw [_decodeHeader, if_pos h]


theorem magicMismatch_take (data : List Nat) :
    magicMismatch (data.take HEADER_SIZE) = magicMismatch data := by
  simp only [magicMismatch, HEADER_FLAG, HEADER_SIZE]
  norm_num [List.range_succ]

theorem decode_take (data : List Nat) :
    _decodeHeader (data.take HEADER_SIZE) = _decodeHeader data := by
  rcases le_or_lt data.length HEADER_SIZE with hle | hgt
  · rw [List.take_of_length_le hle]
  · have htlen : (data.take HEADER_SIZE).length = HEADER_SIZE := by
      rw [List.length_take]
      omega
    have heol : ((data.take HEADER_SIZE).drop HEADER_FLAG.length).take 8 =
        (data.drop HEADER_FLAG.length).take 8 := by
      rw [List.drop_take, show HEADER_SIZE - HEADER_FLAG.length = 16 from rfl,
        List.take_take]
      norm_num
    have hnl : ¬ data.length < HEADER_SIZE := by omega
    simp only [_decodeHeader, htlen, magicMismatch_take, heol,
      lt_self_iff_false, if_false, hnl]

/-- C6: failure modes of `_decodeHeader`. It fails with `BadHeaderSize`
(carrying the buffer length) exactly when the buffer is shorter than
`HEADER_SIZE`; with `BadHeaderFormat` exactly when the size is sufficient
but the 4 leading bytes differ from the magic tag; otherwise it returns
the little-endian 64-bit float at offset 4; and in every case its result
depends only on the first `HEADER_SIZE` bytes (the decoder is a pure
function by construction). -/
theorem C6_decodeHeader_failure_modes (data : List Nat) :
    (_decodeHeader data = .error (.badHeaderSize data.length) ↔
      data.length < HEADER_SIZE) ∧
    (_decodeHeader data = .error .badHeaderFmt ↔
      (HEADER_SIZE ≤ data.length ∧ magicMismatch data = true)) ∧
    (_decodeHeader data =
        .ok ⟨f64FromBytesLE ((data.drop HEADER_FLAG.length).take 8)⟩ ↔
      (HEADER_SIZE ≤ data.length ∧ magicMismatch data = false)) ∧
    _decodeHeader data = _decodeHeader (data.take HEADER_SIZE) := by
  refine ⟨?_, ?_, ?_, (decode_take data).symm⟩
  · by_cases hlen : data.length < HEADER_SIZE
    · simp [_decodeHeader, hlen]
    · by_cases hm : magicMismatch data <;> simp [_decodeHeader, hlen, hm]
  · by_cases hlen : data.length < HEADER_SIZE
    · simp [_decodeHeader, hlen]
    · by_cases hm : magicMismatch data <;>
        simp [_decodeHeader, hlen, hm] <;> omega
  · by_cases hlen : data.length < HEADER_SIZE
    · simp [_decodeHeader, hlen]
    · by_cases hm : magicMismatch data <;>
        simp [_decodeHeader, hlen, hm] <;> omega


/-- C7: header codec round-trip: decoding an encoded header returns the
eol that was encoded, for every representable (64-bit pattern) value. -/
theorem C7_header_roundtrip (bits : Nat) (h : bits < 2 ^ 64) :
    _decodeHeader (_encodeHeader (some bits)) = .ok ⟨bits⟩ := by
  rw [decode_encode, Nat.mod_eq_of_lt h]

/-- Witness for C7 at eol 0, at the bit pattern of the double 12
(`0x4028000000000000`), and at the largest finite double pattern
(`0x7fefffffffffffff`). -/
theorem C7_header_roundtrip_witness :
    _decodeHeader (_encodeHeader (some 0)) = .ok ⟨0⟩ ∧
    _decodeHeader (_encodeHeader (some 4622945017495814144)) =
      .ok ⟨4622945017495814144⟩ ∧
    _decodeHeader (_encodeHeader (some 9218868437227405311)) =
      .ok ⟨9218868437227405311⟩ :=
  ⟨C7_header_roundtrip 0 (by norm_num),
   C7_header_roundtrip 4622945017495814144 (by norm_num),
   C7_header_roundtrip 9218868437227405311 (by norm_num)⟩

/-- C8 (code bug): in the callback variant, `fileCacheSetEOL` on an
existing bucket runs a stray `cb(null)` right after scheduling the header
write, so the surfaced (first) outcome is success even when the write is
short; the `E_BAD_WRITE` failure only arrives as a second callback
invocation. The promise variant surfaces `E_BAD_WRITE` as claimed, and
in both variants the payload bytes after `HEADER_SIZE` are untouched. -/
theorem C8_setEOL_badwrite_surfacing :
    ((fileCacheSetEOL (fun q => if q = _keyToPath "d" "k"
        then some (_encodeHeader (some 5) ++ [1, 2, 3]) else none)
        "d" 10 "k" (some 20) ⟨none, 5⟩).1 =
      [.ok (), .error (.badWrite 5)]) ∧
    ((setEOL (fun q => if q = _keyToPath "d" "k"
        then some (_encodeHeader (some 5) ++ [1, 2, 3]) else none)
        "d" 10 100 "k" (some 20) ⟨none, 5⟩).res = .error (.badWrite 5)) ∧
    (((fileCacheSetEOL (fun q => if q = _keyToPath "d" "k"
        then some (_encodeHeader (some 5) ++ [1, 2, 3]) else none)
        "d" 10 "k" (some 20) ⟨none, 5⟩).2 (_keyToPath "d" "k")).map
      (List.drop HEADER_SIZE) = some [1, 2, 3]) := by decide

theorem setEOL_extend (fs : Fs) (dir : String) (now ttl : Nat)
    (key : String) (eol : Nat) (content : List Nat)
    (h : ¬ eol < now)
    (hfile : fs (_keyToPath dir key) = some content) :
    (setEOL fs dir now ttl key (some eol) ⟨none, HEADER_SIZE⟩).res = .ok () ∧
    (setEOL fs dir now ttl key (some eol) ⟨none, HEADER_SIZE⟩).fs
      (_keyToPath dir key) =
      some (_encodeHeader (some eol) ++ content.drop HEADER_SIZE) ∧
    (setEOL fs dir now ttl key (some eol) ⟨none, HEADER_SIZE⟩).locks =
      [.release key] := by
  have htake : (_encodeHeader (some eol)).take HEADER_SIZE =
      _encodeHeader (some eol) :=
    List.take_of_length_le (le_of_eq (encodeHeader_length _))
  simp [setEOL, h, hfile, Fs.update, htake]

theorem fileCacheSetStream_success (fs : Fs) (dir : String) (now : Nat)
    (key : String) (chunks : List (List Nat)) (eol : Nat)
    (h : ¬ (if eol = 0 then SENTINEL else eol) < now)
    (htmp : fs (_keyToPath dir key ++ ".tmp") = none) :
    (fileCacheSetStream fs dir now key chunks (some eol) ⟨none, none⟩).1 =
      .ok () ∧
    (fileCacheSetStream fs dir now key chunks (some eol) ⟨none, none⟩).2
      (_keyToPath dir key) =
      some (_encodeHeader (some eol) ++ concatChunks chunks) ∧
    (fileCacheSetStream fs dir now key chunks (some eol) ⟨none, none⟩).2
      (_keyToPath dir key ++ ".tmp") = none := by
  have hne : _keyToPath dir key ≠ _keyToPath dir key ++ ".tmp" :=
    ne_append_tmp _
  have hne2 : _keyToPath dir key ++ ".tmp" ≠ _keyToPath dir key := hne.symm
  simp [fileCacheSetStream, h, htmp, nodeRename, Fs.update, hne, hne2]

/-- C9 counterexample: in the promise variant, `setEOL` with `eol`
omitted does NOT default to 0 and delete the bucket: the default is
`time() + FS_CACHE_TTL`, so the call takes the extend path and the file
survives with its eol pushed to `now + ttl` (here 5 + 10 = 15). -/
theorem C9_counterexample :
    (setEOL (fun q => if q = _keyToPath "d" "k"
        then some (_encodeHeader (some 0) ++ [9]) else none)
      "d" 5 10 "k" none ⟨none, HEADER_SIZE⟩).res = .ok () ∧
    (setEOL (fun q => if q = _keyToPath "d" "k"
        then some (_encodeHeader (some 0) ++ [9]) else none)
      "d" 5 10 "k" none ⟨none, HEADER_SIZE⟩).fs (_keyToPath "d" "k") =
      some (_encodeHeader (some 15) ++ [9]) := by decide

/-- C9 amended: in the promise variant every operation defaults an
omitted `eol` to `now() + TTL` — including `setEOL`, which therefore
takes the extend path and keeps the bucket — while only the callback
variant's `fileCacheSetEOL` defaults an omitted `eol` to 0 and deletes
the bucket immediately. -/
theorem C9_amended (fs : Fs) (dir : String) (now ttl : Nat) (key : String)
    (data : List Nat) (chunks : List (List Nat)) (content : List Nat)
    (hfile : fs (_keyToPath dir key) = some content)
    (htmp : fs (_keyToPath dir key ++ ".tmp") = none)
    (hpos : 0 < now) :
    ((set fs dir now ttl key data none ⟨none, none⟩).fs
        (_keyToPath dir key) =
      some (_encodeHeader (some (now + ttl)) ++ data)) ∧
    ((setStream fs dir now ttl key chunks none ⟨none, none⟩).fs
        (_keyToPath dir key) =
      some (_encodeHeader (some (now + ttl)) ++ concatChunks chunks)) ∧
    ((setEOL fs dir now ttl key none ⟨none, HEADER_SIZE⟩).res = .ok () ∧
     (setEOL fs dir now ttl key none ⟨none, HEADER_SIZE⟩).fs
        (_keyToPath dir key) =
      some (_encodeHeader (some (now + ttl)) ++ content.drop HEADER_SIZE)) ∧
    ((fileCacheSetEOL fs dir now key none ⟨none, HEADER_SIZE⟩).1 =
        [.ok ()] ∧
     (fileCacheSetEOL fs dir now key none ⟨none, HEADER_SIZE⟩).2
        (_keyToPath dir key) = none) := by
  have hd1 : set fs dir now ttl key data none ⟨none, none⟩ =
      set fs dir now ttl key data (some (now + ttl)) ⟨none, none⟩ := rfl
  have hd2 : setStream fs dir now ttl key chunks none ⟨none, none⟩ =
      setStream fs dir now ttl key chunks (some (now + ttl)) ⟨none, none⟩ :=
    rfl
  have hd3 : setEOL fs dir now ttl key none ⟨none, HEADER_SIZE⟩ =
      setEOL fs dir now ttl key (some (now + ttl)) ⟨none, HEADER_SIZE⟩ := rfl
  have hnp : ¬ now + ttl < now := by omega
  have hsent : ¬ (if now + ttl = 0 then SENTINEL else now + ttl) < now := by
    have hz : now + ttl ≠ 0 := by omega
    simp only [hz, if_false]
    omega
  refine ⟨?_, ?_, ?_, ?_⟩
  · rw [hd1]
    exact (set_success fs dir now ttl key data (now + ttl) hnp).2.1
  · rw [hd2]
    exact (setStream_success fs dir now ttl key chunks (now + ttl) hsent
      htmp).2.1
  · rw [hd3]
    obtain ⟨h1, h2, h3⟩ :=
      setEOL_extend fs dir now ttl key (now + ttl) content hnp hfile
    exact ⟨h1, h2⟩
  · simp [fileCacheSetEOL, hpos, nodeUnlink, hfile, Fs.update]

/-- Witness for C9 amended at a concrete input (one stored bucket,
`now = 5`, `ttl = 10`). -/
theorem C9_amended_witness :
    ((set (fun q => if q = _keyToPath "d" "k"
          then some (_encodeHeader (some 0) ++ [9]) else none)
        "d" 5 10 "k" [1] none ⟨none, none⟩).fs (_keyToPath "d" "k") =
      some (_encodeHeader (some 15) ++ [1])) ∧
    ((setStream (fun q => if q = _keyToPath "d" "k"
          then some (_encodeHeader (some 0) ++ [9]) else none)
        "d" 5 10 "k" [[2]] none ⟨none, none⟩).fs (_keyToPath "d" "k") =
      some (_encodeHeader (some 15) ++ concatChunks [[2]])) ∧
    ((setEOL (fun q => if q = _keyToPath "d" "k"
          then some (_encodeHeader (some 0) ++ [9]) else none)
        "d" 5 10 "k" none ⟨none, HEADER_SIZE⟩).res = .ok () ∧
     (setEOL (fun q => if q = _keyToPath "d" "k"
          then some (_encodeHeader (some 0) ++ [9]) else none)
        "d" 5 10 "k" none ⟨none, HEADER_SIZE⟩).fs (_keyToPath "d" "k") =
      some (_encodeHeader (some 15) ++
        (_encodeHeader (some 0) ++ [9]).drop HEADER_SIZE)) ∧
    ((fileCacheSetEOL (fun q => if q = _keyToPath "d" "k"
          then some (_encodeHeader (some 0) ++ [9]) else none)
        "d" 5 "k" none ⟨none, HEADER_SIZE⟩).1 = [.ok ()] ∧
     (fileCacheSetEOL (fun q => if q = _keyToPath "d" "k"
          then some (_encodeHeader (some 0) ++ [9]) else none)
        "d" 5 "k" none ⟨none, HEADER_SIZE⟩).2 (_keyToPath "d" "k") = none) :=
  C9_amended (fun q => if q = _keyToPath "d" "k"
      then some (_encodeHeader (some 0) ++ [9]) else none)
    "d" 5 10 "k" [1] [[2]] (_encodeHeader (some 0) ++ [9])
    (by simp) (by simp [_keyToPath]; decide) (by norm_num)

/-- C10: the implicit eol-zero trap in `setStream`. An explicit `eol` of 0
is replaced by the huge sentinel (`0xffffffffffffffff`) before the
pre-check, so `setStream` succeeds in both variants — but the header was
encoded before the replacement and carries eol 0, so every later `get` or
`getStream` on the key fails with `EndOfLife(0)` (at any positive read
time). -/
theorem C10_setStream_eol_zero_trap (fs : Fs) (dir : String)
    (now readTime ttl : Nat) (key : String) (chunks : List (List Nat))
    (htmp : fs (_keyToPath dir key ++ ".tmp") = none)
    (hnow : now ≤ SENTINEL) (hpos : 0 < readTime) :
    ((setStream fs dir now ttl key chunks (some 0) ⟨none, none⟩).res =
       .ok () ∧
     get (setStream fs dir now ttl key chunks (some 0) ⟨none, none⟩).fs dir
       readTime key = .error (.endOfLife 0) ∧
     getStream (setStream fs dir now ttl key chunks (some 0)
       ⟨none, none⟩).fs dir readTime key = .error (.endOfLife 0)) ∧
    ((fileCacheSetStream fs dir now key chunks (some 0) ⟨none, none⟩).1 =
       .ok () ∧
     get (fileCacheSetStream fs dir now key chunks (some 0)
       ⟨none, none⟩).2 dir readTime key = .error (.endOfLife 0)) := by
  have hsent : ¬ (if (0 : Nat) = 0 then SENTINEL else 0) < now := by
    rw [if_pos rfl]
    omega
  obtain ⟨r1, f1, t1, l1⟩ :=
    setStream_success fs dir now ttl key chunks 0 hsent htmp
  obtain ⟨r2, f2, t2⟩ :=
    fileCacheSetStream_success fs dir now key chunks 0 hsent htmp
  have hdead : (0 : Nat) % 2 ^ 64 < readTime := by
    simpa using hpos
  have g1 := get_encode_dead _ dir readTime key 0 _ f1 hdead
  have g2 := getStream_encode_dead _ dir readTime key 0 _ f1 hdead
  have g3 := get_encode_dead _ dir readTime key 0 _ f2 hdead
  norm_num at g1 g2 g3
  exact ⟨⟨r1, g1, g2⟩, ⟨r2, g3⟩⟩

/-- Witness for C10 at a concrete input: empty filesystem, `now = 10`,
read at time 11, chunks `[[1], [2, 3]]`. -/
theorem C10_setStream_eol_zero_trap_witness :
    ((setStream (fun _ => none) "d" 10 100 "k" [[1], [2, 3]] (some 0)
        ⟨none, none⟩).res = .ok () ∧
     get (setStream (fun _ => none) "d" 10 100 "k" [[1], [2, 3]] (some 0)
        ⟨none, none⟩).fs "d" 11 "k" = .error (.endOfLife 0) ∧
     getStream (setStream (fun _ => none) "d" 10 100 "k" [[1], [2, 3]]
        (some 0) ⟨none, none⟩).fs "d" 11 "k" = .error (.endOfLife 0)) ∧
    ((fileCacheSetStream (fun _ => none) "d" 10 "k" [[1], [2, 3]] (some 0)
        ⟨none, none⟩).1 = .ok () ∧
     get (fileCacheSetStream (fun _ => none) "d" 10 "k" [[1], [2, 3]]
        (some 0) ⟨none, none⟩).2 "d" 11 "k" = .error (.endOfLife 0)) :=
  C10_setStream_eol_zero_trap (fun _ => none) "d" 10 11 100 "k"
    [[1], [2, 3]] rfl (by norm_num [SENTINEL]) (by norm_num)

end SfFileCache
